import Mathlib

/-!
Verification of the webitel/im-delivery-service delivery core.

This file gives a shallow embedding, in Lean 4, of the parts of the Go
source that the checked properties concern:

* the Connector backpressure policy
  (`internal/domain/model/connect.go` and the registry-package variant
  embedded in `internal/adapter/pubsub/publisher.go`; their
  `handleBackpressure` bodies are textually identical),
* the Connector `Close` routines of both variants,
* the Cell mailbox, batch-draining delivery loop
  (`internal/domain/registry/cell.go`),
* the sharded Hub (`internal/domain/registry/hub.go`),
* the AMQP binder (`internal/handler/amqp/bind.go`),
* the routing-key generator
  (`internal/domain/event/event_message_v1.go`),
* the peer enricher (`internal/service/peer_enricher.go`).

Conventions of the embedding:

* Go channels of capacity `n` are modelled as lists (head = oldest
  element, the one a receive would yield) together with the explicit
  capacity; a non-blocking send succeeds exactly when the list is
  shorter than the capacity.
* The embedding is sequential: a `select` whose channel operation cannot
  proceed immediately takes its timeout/default branch, since no other
  goroutine can intervene in the modelled run.
* `uuid.UUID` is modelled as a first byte (used by the Hub for shard
  selection) paired with a natural number standing for the remaining
  fifteen bytes.  `uuid.Parse` and the external contact-lookup RPC are
  modelled as explicit function parameters, since they are library and
  network collaborators of the repository.
* Go `error` results are modelled as `Option String` (`none` = `nil`).
-/

namespace IMDelivery

/-- Priority values, from `InboundEventPriority` / `EventPriority` in the
source: Low = 10, Normal = 20, High = 30 (Go `int32` constants). -/
def PriorityLow : Int := 10

/-- Normal priority (20). -/
def PriorityNormal : Int := 20

/-- High priority (30). -/
def PriorityHigh : Int := 30

/-- An event as the Connector and Cell see it: the embedding keeps the
identity and the priority, which are the only fields the queueing code
reads (`ev.GetPriority()`); identity lets FIFO statements distinguish
events. -/
structure Event where
  id : Nat
  priority : Int
deriving DecidableEq, Repr

/-- State of one `connect` value (both variants share this queueing
state): the buffered channel `sendCh` (oldest first), its capacity, the
atomic `droppedCount`, and whether the session context has been
cancelled. -/
structure Connect where
  queue : List Event
  capacity : Nat
  dropped : Nat
  ctxCancelled : Bool
deriving DecidableEq, Repr

namespace Connect

/-- Embedding of `handleBackpressure` (identical in
`internal/domain/model/connect.go:98-126` and the registry variant at
`internal/adapter/pubsub/publisher.go:143-171`).  Called when `sendCh`
is full.  Low-or-below incoming events are dropped and counted; otherwise
one event is received from the channel (the oldest); if it has strictly
lower priority the incoming event is sent in its place and the call
returns true (no counter update on this path); otherwise the old event
is re-sent best-effort (dropped if the channel has no room) and the
incoming event is dropped and counted.  With no concurrent sender, a
receive from an empty channel loses the race against `time.After`, the
timeout branch. -/
def handleBackpressure (c : Connect) (ev : Event) : Bool × Connect :=
  if ev.priority ≤ PriorityLow then
    (false, { c with dropped := c.dropped + 1 })
  else
    match c.queue with
    | [] =>
      (false, { c with dropped := c.dropped + 1 })
    | oldEv :: rest =>
      if oldEv.priority < ev.priority then
        (true, { c with queue := rest ++ [ev] })
      else
        let q := if rest.length < c.capacity then rest ++ [oldEv] else rest
        (false, { c with queue := q, dropped := c.dropped + 1 })

/-- Embedding of `Send` (`connect.go:85-95`; the registry variant at
`publisher.go:117-140` waits up to `timeout` before its backpressure
branch, which in a sequential run changes nothing).  A cancelled context
wins; otherwise the event is enqueued if the channel has room; a full
channel goes to `handleBackpressure`. -/
def send (c : Connect) (ev : Event) : Bool × Connect :=
  if c.ctxCancelled then
    (false, c)
  else if c.queue.length < c.capacity then
    (true, { c with queue := c.queue ++ [ev] })
  else
    handleBackpressure c ev

end Connect

end IMDelivery

namespace IMDelivery

/-- CLAIM C1 (as frozen): a full all-Low queue plus an incoming High
event should yield eviction of the oldest, enqueue of the incoming,
`true`, and `droppedCount` incremented by exactly 1.  The code's
replacement path (`connect.go:109-112`) returns `true` without touching
`droppedCount`; this concrete run exhibits it: one Low event in a
capacity-1 queue, incoming High succeeds with the counter still 0. -/
theorem c1_counterexample :
    (Connect.send ⟨[⟨0, PriorityLow⟩], 1, 0, false⟩ ⟨1, PriorityHigh⟩).1 = true ∧
    (Connect.send ⟨[⟨0, PriorityLow⟩], 1, 0, false⟩ ⟨1, PriorityHigh⟩).2.queue
      = [⟨1, PriorityHigh⟩] ∧
    ¬ (Connect.send ⟨[⟨0, PriorityLow⟩], 1, 0, false⟩ ⟨1, PriorityHigh⟩).2.dropped
      = 0 + 1 := by
  decide

/-- CLAIM C1 (amended): for every Connector whose bounded queue is full
and contains only Low-priority events, `Send` of a High-priority event
removes the oldest queued event, enqueues the incoming event at the
back, and returns true; `droppedCount` is left unchanged (the evicted
event is not counted on this path). -/
theorem c1_high_evicts_oldest_low (c : Connect) (ev oldEv : Event)
    (rest : List Event)
    (hq : c.queue = oldEv :: rest)
    (hfull : c.queue.length = c.capacity)
    (hctx : c.ctxCancelled = false)
    (hlow : ∀ e ∈ c.queue, e.priority = PriorityLow)
    (hhigh : ev.priority = PriorityHigh) :
    Connect.send c ev = (true, { c with queue := rest ++ [ev] }) := by
  have hold : oldEv.priority = PriorityLow := hlow oldEv (by rw [hq]; exact List.mem_cons_self _ _)
  unfold Connect.send Connect.handleBackpressure
  rw [hctx, hq] at *
  simp only [Bool.false_eq_true, if_false]
  rw [hfull] at *
  simp only [lt_irrefl, if_false]
  rw [hhigh, hold]
  norm_num [PriorityLow, PriorityHigh]

/-- Witness for `c1_high_evicts_oldest_low`: a capacity-2 queue holding
two Low events, incoming High. -/
theorem c1_high_evicts_oldest_low_witness :
    Connect.send ⟨[⟨0, PriorityLow⟩, ⟨1, PriorityLow⟩], 2, 5, false⟩ ⟨2, PriorityHigh⟩
      = (true, ⟨[⟨1, PriorityLow⟩, ⟨2, PriorityHigh⟩], 2, 5, false⟩) := by
  exact c1_high_evicts_oldest_low _ ⟨2, PriorityHigh⟩ ⟨0, PriorityLow⟩ [⟨1, PriorityLow⟩]
    rfl rfl rfl (by decide) rfl

/-- CLAIM C4: for every Connector whose bounded queue is full, `Send` of
an event with priority ≤ Low returns false, increments `droppedCount` by
exactly 1, and leaves the queued events unchanged, in the same order
(`connect.go:100-103`). -/
theorem c4_low_dropped_on_full_queue (c : Connect) (ev : Event)
    (hfull : c.queue.length = c.capacity)
    (hctx : c.ctxCancelled = false)
    (hlow : ev.priority ≤ PriorityLow) :
    Connect.send c ev = (false, { c with dropped := c.dropped + 1 }) := by
  unfold Connect.send Connect.handleBackpressure
  rw [hctx]
  simp only [Bool.false_eq_true, if_false]
  rw [hfull]
  simp only [lt_irrefl, if_false, hlow, if_pos]

/-- Witness for `c4_low_dropped_on_full_queue`: a full capacity-2 queue
of High events, incoming Low. -/
theorem c4_low_dropped_on_full_queue_witness :
    Connect.send ⟨[⟨0, PriorityHigh⟩, ⟨1, PriorityHigh⟩], 2, 0, false⟩ ⟨2, PriorityLow⟩
      = (false, ⟨[⟨0, PriorityHigh⟩, ⟨1, PriorityHigh⟩], 2, 1, false⟩) := by
  exact c4_low_dropped_on_full_queue _ ⟨2, PriorityLow⟩ rfl rfl (by decide)

/-- CLAIM C10: if a Connector's full queue holds only events with
priority ≥ the incoming event's (incoming above Low), `Send` dequeues
the oldest event and re-enqueues it at the back (room exists after the
dequeue), returns false, and increments `droppedCount`; the retained
events end up with the previously-oldest event last, so FIFO order among
retained events is not preserved (`connect.go:107-126`). -/
theorem c10_reenqueue_breaks_fifo (c : Connect) (ev oldEv : Event)
    (rest : List Event)
    (hq : c.queue = oldEv :: rest)
    (hfull : c.queue.length = c.capacity)
    (hctx : c.ctxCancelled = false)
    (habove : PriorityLow < ev.priority)
    (hge : ∀ e ∈ c.queue, ev.priority ≤ e.priority) :
    Connect.send c ev
      = (false, { c with queue := rest ++ [oldEv], dropped := c.dropped + 1 }) ∧
    (rest ++ [oldEv]).getLast? = some oldEv := by
  have hold : ev.priority ≤ oldEv.priority := hge oldEv (by rw [hq]; exact List.mem_cons_self _ _)
  have hroom : rest.length < c.capacity := by
    have : (oldEv :: rest).length = c.capacity := by rw [← hq]; exact hfull
    simp only [List.length_cons] at this
    omega
  constructor
  · unfold Connect.send Connect.handleBackpressure
    rw [hctx]
    simp only [Bool.false_eq_true, if_false]
    rw [hfull]
    simp only [lt_irrefl, if_false]
    rw [if_neg (by omega), hq]
    simp only [hroom, if_pos]
    rw [if_neg (by omega)]
  · exact List.getLast?_concat _

/-- Witness for `c10_reenqueue_breaks_fifo`: a full capacity-2 queue of
two High events, incoming High; the queue rotates. -/
theorem c10_reenqueue_breaks_fifo_witness :
    Connect.send ⟨[⟨0, PriorityHigh⟩, ⟨1, PriorityHigh⟩], 2, 0, false⟩ ⟨2, PriorityHigh⟩
      = (false, ⟨[⟨1, PriorityHigh⟩, ⟨0, PriorityHigh⟩], 2, 1, false⟩) ∧
    ([⟨1, PriorityHigh⟩, (⟨0, PriorityHigh⟩ : Event)]).getLast? = some ⟨0, PriorityHigh⟩ := by
  have h := c10_reenqueue_breaks_fifo ⟨[⟨0, PriorityHigh⟩, ⟨1, PriorityHigh⟩], 2, 0, false⟩
    ⟨2, PriorityHigh⟩ ⟨0, PriorityHigh⟩ [⟨1, PriorityHigh⟩] rfl rfl rfl (by decide)
    (by decide)
  exact ⟨h.1, h.2⟩

/-- Teardown-relevant state of the registry-package `connect` variant
(`internal/adapter/pubsub/publisher.go:60-71`): whether the derived
context is cancelled, whether `sendCh` is non-nil, how many times
`close(sendCh)` has executed, how many times the value was `Put` back
into the pool, and whether the `sync.Once` close guard has fired. -/
structure RegistryConnClose where
  ctxCancelled : Bool
  sendChPresent : Bool
  chanCloseCount : Nat
  poolPuts : Nat
  closeOnceDone : Bool
deriving DecidableEq, Repr

namespace RegistryConnClose

/-- Embedding of the registry variant's `Close`
(`publisher.go:176-200`): `closeOnce.Do` runs the body only on the first
call; the body cancels the context, closes the non-nil channel, nils it,
and returns the struct to the pool. -/
def close (c : RegistryConnClose) : RegistryConnClose :=
  if c.closeOnceDone then c
  else
    { ctxCancelled := true
      sendChPresent := false
      chanCloseCount := c.chanCloseCount + (if c.sendChPresent then 1 else 0)
      poolPuts := c.poolPuts + 1
      closeOnceDone := true }

end RegistryConnClose

/-- Teardown-relevant state of the model-package `connect` variant
(`internal/domain/model/connect.go:34-48`), which has no close guard. -/
structure ModelConnClose where
  ctxCancelled : Bool
  sendChPresent : Bool
  chanCloseCount : Nat
  poolPuts : Nat
deriving DecidableEq, Repr

namespace ModelConnClose

/-- Embedding of the model variant's `Close` (`connect.go:131-139`):
every call cancels the context, nils `sendCh` (without closing it), and
puts the value back into the pool. -/
def close (c : ModelConnClose) : ModelConnClose :=
  { ctxCancelled := true
    sendChPresent := false
    chanCloseCount := c.chanCloseCount
    poolPuts := c.poolPuts + 1 }

end ModelConnClose

/-- CLAIM C2 (as frozen): every Connector's `Close` should be idempotent
and close the `Recv` channel exactly once.  The model-package variant
(`connect.go:131-139`) falsifies this on a fresh connector: its first
`Close` never closes the channel (close count stays 0, so no receiver
ever observes closure), and a second `Close` has a further observable
effect (a second pool `Put`). -/
theorem c2_counterexample :
    (ModelConnClose.close ⟨false, true, 0, 0⟩).chanCloseCount = 0 ∧
    ¬ (ModelConnClose.close (ModelConnClose.close ⟨false, true, 0, 0⟩)
        = ModelConnClose.close ⟨false, true, 0, 0⟩) := by
  decide

/-- CLAIM C2 (amended): for the registry-package Connector variant — the
one the delivery registry uses, with the `sync.Once` guard — `Close` is
idempotent (a second `Close` is the identity on the state), and starting
from a live connector with a non-nil channel the channel is closed
exactly once, however many further `Close` calls follow.  The
model-package variant lacks the guard and never closes its channel. -/
theorem c2_registry_close_idempotent (c : RegistryConnClose)
    (hdone : c.closeOnceDone = false)
    (hch : c.sendChPresent = true) :
    RegistryConnClose.close (RegistryConnClose.close c) = RegistryConnClose.close c ∧
    (RegistryConnClose.close c).chanCloseCount = c.chanCloseCount + 1 ∧
    ∀ n : Nat, (RegistryConnClose.close^[n] (RegistryConnClose.close c)).chanCloseCount
      = c.chanCloseCount + 1 := by
  have hstep : RegistryConnClose.close c =
      { ctxCancelled := true, sendChPresent := false,
        chanCloseCount := c.chanCloseCount + 1, poolPuts := c.poolPuts + 1,
        closeOnceDone := true } := by
    unfold RegistryConnClose.close
    rw [hdone, hch]
    simp
  have hfix : RegistryConnClose.close (RegistryConnClose.close c) = RegistryConnClose.close c := by
    rw [hstep]
    unfold RegistryConnClose.close
    simp
  have hiter : ∀ n : Nat, RegistryConnClose.close^[n] (RegistryConnClose.close c)
      = RegistryConnClose.close c := by
    intro n
    induction n with
    | zero => rfl
    | succ k ihk => rw [Function.iterate_succ_apply', ihk, hfix]
  refine ⟨hfix, by rw [hstep], ?_⟩
  intro n
  rw [hiter n, hstep]

/-- Witness for `c2_registry_close_idempotent`: a fresh registry
connector. -/
theorem c2_registry_close_idempotent_witness :
    RegistryConnClose.close (RegistryConnClose.close ⟨false, true, 0, 0, false⟩)
      = RegistryConnClose.close ⟨false, true, 0, 0, false⟩ ∧
    (RegistryConnClose.close ⟨false, true, 0, 0, false⟩).chanCloseCount = 0 + 1 := by
  have h := c2_registry_close_idempotent ⟨false, true, 0, 0, false⟩ rfl rfl
  exact ⟨h.1, h.2.1⟩

/-- One wakeup of the Cell delivery loop
(`internal/domain/registry/cell.go:124-149`), viewed on the mailbox
contents at the moment the blocking `select` fires: the loop receives
one event, delivers it, then runs a drain loop of up to 64 further
receives (`for range 64`), each delivering one more event, stopping
early on an empty mailbox.  The first component is the batch delivered
in this wakeup, the second the mailbox left for the next `select`. -/
def cellWakeup (mailbox : List Event) : List Event × List Event :=
  match mailbox with
  | [] => ([], [])
  | ev :: rest => (ev :: rest.take 64, rest.drop 64)

/-- CLAIM C3 (as frozen): a wakeup should deliver at most 64 events (1 +
at most 63 drained).  The drain loop runs `for range 64`, so a mailbox
holding 65 events is emptied in a single wakeup: the batch has 65
events, not at most 64. -/
theorem c3_counterexample :
    ¬ ((cellWakeup ((List.range 65).map (fun i => ⟨i, PriorityNormal⟩))).1.length ≤ 64) := by
  decide

/-- CLAIM C3 (amended): in every wakeup of the Cell delivery loop, after
delivering the first received event the loop drains and delivers at most
64 additional events from the mailbox before returning to the blocking
select — at most 65 events delivered per wakeup, and exactly
`min (n, 65)` when the mailbox holds `n`. -/
theorem c3_wakeup_batch_bound (ev : Event) (rest : List Event) :
    cellWakeup (ev :: rest) = (ev :: rest.take 64, rest.drop 64) ∧
    (cellWakeup (ev :: rest)).1.length ≤ 65 ∧
    (cellWakeup (ev :: rest)).1.length = min (ev :: rest).length 65 := by
  refine ⟨rfl, ?_, ?_⟩
  · simp only [cellWakeup, List.length_cons, List.length_take]
    omega
  · simp only [cellWakeup, List.length_cons, List.length_take]
    omega

/-- Witness for `c3_wakeup_batch_bound`: a two-event mailbox is drained
whole in one wakeup. -/
theorem c3_wakeup_batch_bound_witness :
    cellWakeup [⟨0, PriorityNormal⟩, ⟨1, PriorityNormal⟩]
      = ([⟨0, PriorityNormal⟩, ⟨1, PriorityNormal⟩], []) ∧
    (cellWakeup [⟨0, PriorityNormal⟩, (⟨1, PriorityNormal⟩ : Event)]).1.length ≤ 65 ∧
    (cellWakeup [⟨0, PriorityNormal⟩, (⟨1, PriorityNormal⟩ : Event)]).1.length
      = min ([⟨0, PriorityNormal⟩, (⟨1, PriorityNormal⟩ : Event)]).length 65 := by
  exact c3_wakeup_batch_bound ⟨0, PriorityNormal⟩ [⟨1, PriorityNormal⟩]

/-- Embedding of `Cell.Push` (`cell.go:97-106`): non-blocking send into
the bounded mailbox; returns false and leaves the mailbox unchanged when
it is full. -/
def cellPush (cap : Nat) (mailbox : List Event) (ev : Event) : Bool × List Event :=
  if mailbox.length < cap then (true, mailbox ++ [ev]) else (false, mailbox)

/-- A sequence of broadcasts to one user, each landing in the Cell's
mailbox through `Hub.Broadcast` → `Cell.Push` (`hub.go:108-121`,
`cell.go:97-106`).  Returns the final mailbox and the number of pushes
that returned false. -/
def cellPushAll (cap : Nat) (mailbox : List Event) : List Event → List Event × Nat
  | [] => (mailbox, 0)
  | ev :: rest =>
    let r := cellPush cap mailbox ev
    let acc := cellPushAll cap r.2 rest
    (acc.1, (if r.1 then 0 else 1) + acc.2)

/-- One delivery step of `Cell.deliver` (`cell.go:152-164`) for a user
with a single attached session: `conn.Send(ev, 250 ms)` on the session's
connector state. -/
def deliverTo (c : Connect) (ev : Event) : Connect :=
  (Connect.send c ev).2

/-- The Cell delivery loop (`cell.go:124-149`) run to completion on a
mailbox snapshot, for a single attached session: each wakeup delivers
the received event plus up to 64 drained events (the `for range 64`
batch), then the loop selects again; it terminates here when the mailbox
is empty. -/
def cellRunLoop : List Event → Connect → Connect
  | [], c => c
  | ev :: rest, c =>
    cellRunLoop (rest.drop 64) (List.foldl deliverTo (deliverTo c ev) (rest.take 64))
termination_by m _ => m.length
decreasing_by
  simp only [List.length_drop, List.length_cons]
  omega

/-- Batch-draining is a pure scheduling optimization: the loop delivers
exactly the mailbox contents in order, as a left fold of `Send`. -/
theorem cellRunLoop_eq_foldl (m : List Event) (c : Connect) :
    cellRunLoop m c = List.foldl deliverTo c m := by
  induction m, c using cellRunLoop.induct with
  | case1 c => rw [cellRunLoop]; rfl
  | case2 ev rest c ih =>
    rw [cellRunLoop, ih, ← List.foldl_append, List.take_append_drop, List.foldl_cons]

/-- With a live context and enough room for the whole batch, every
`Send` takes the fast path: the connector queue grows by exactly the
delivered events, in order, and nothing is dropped. -/
theorem foldl_deliverTo_no_drop (evs : List Event) (c : Connect)
    (hctx : c.ctxCancelled = false)
    (hroom : c.queue.length + evs.length ≤ c.capacity) :
    List.foldl deliverTo c evs = { c with queue := c.queue ++ evs } := by
  induction evs generalizing c with
  | nil => simp
  | cons ev rest ih =>
    have hlt : c.queue.length < c.capacity := by
      simp only [List.length_cons] at hroom
      omega
    have hsend : deliverTo c ev = { c with queue := c.queue ++ [ev] } := by
      unfold deliverTo Connect.send
      rw [hctx]
      simp [hlt]
    rw [List.foldl_cons, hsend, ih]
    · simp
    · simpa using hctx
    · simp only [List.length_append, List.length_cons, List.length_nil]
      simp only [List.length_cons] at hroom
      omega

/-- With room for every event, no push fails and the mailbox accumulates
the broadcast sequence in order. -/
theorem cellPushAll_no_drop (cap : Nat) (m evs : List Event)
    (h : m.length + evs.length ≤ cap) :
    cellPushAll cap m evs = (m ++ evs, 0) := by
  induction evs generalizing m with
  | nil => simp [cellPushAll]
  | cons ev rest ih =>
    have hlen : m.length + (rest.length + 1) ≤ cap := by
      simpa using h
    have hlt : m.length < cap := by omega
    have hpush : cellPush cap m ev = (true, m ++ [ev]) := by
      simp [cellPush, hlt]
    have hrec : cellPushAll cap (m ++ [ev]) rest = ((m ++ [ev]) ++ rest, 0) := by
      apply ih
      simp only [List.length_append, List.length_cons, List.length_nil]
      omega
    simp only [cellPushAll, hpush, hrec]
    simp

/-- CLAIM C6: for every sequence of events broadcast to a user with
exactly one attached Connector, if no queue is ever full (here: the
mailbox and the connector buffer each have room for the whole sequence,
so no drop occurs), every `Push` succeeds, and running the delivery loop
leaves the connector queue — the channel `Recv` exposes — holding
exactly the broadcast events in broadcast order, with `droppedCount`
still 0. -/
theorem c6_single_session_fifo (evs : List Event) (mcap cap : Nat)
    (hm : evs.length ≤ mcap) (hc : evs.length ≤ cap) :
    cellPushAll mcap [] evs = (evs, 0) ∧
    cellRunLoop evs ⟨[], cap, 0, false⟩ = ⟨evs, cap, 0, false⟩ := by
  constructor
  · have h := cellPushAll_no_drop mcap [] evs (by simpa using hm)
    simpa using h
  · rw [cellRunLoop_eq_foldl]
    have h := foldl_deliverTo_no_drop evs ⟨[], cap, 0, false⟩ rfl (by simpa using hc)
    simpa using h

/-- Witness for `c6_single_session_fifo`: the spec's single-session
happy path — three Normal events through capacity-4 buffers arrive in
order with zero drops. -/
theorem c6_single_session_fifo_witness :
    cellPushAll 4 []
        [⟨1, PriorityNormal⟩, ⟨2, PriorityNormal⟩, ⟨3, PriorityNormal⟩]
      = ([⟨1, PriorityNormal⟩, ⟨2, PriorityNormal⟩, ⟨3, PriorityNormal⟩], 0) ∧
    cellRunLoop [⟨1, PriorityNormal⟩, ⟨2, PriorityNormal⟩, ⟨3, PriorityNormal⟩]
        ⟨[], 4, 0, false⟩
      = ⟨[⟨1, PriorityNormal⟩, ⟨2, PriorityNormal⟩, ⟨3, PriorityNormal⟩], 4, 0, false⟩ := by
  exact c6_single_session_fifo
    [⟨1, PriorityNormal⟩, ⟨2, PriorityNormal⟩, ⟨3, PriorityNormal⟩] 4 4
    (by decide) (by decide)

/-- A `uuid.UUID` (16 bytes), modelled as the first byte — the only byte
the Hub inspects, for shard selection (`hub.go:94-96`) — paired with a
natural number standing for the remaining fifteen bytes. -/
structure UUID where
  byte0 : Fin 256
  rest : Nat
deriving DecidableEq, Repr

/-- The all-zero `uuid.Nil`. -/
def UUID.nil : UUID := ⟨0, 0⟩

/-- State of a registry `Cell` as the Hub observes it
(`cell.go:35-64`): the key set of the `sessions` map and the atomic
`lastActivityUnix` timestamp.  (Mailbox dynamics are modelled separately
above.) -/
structure Cell where
  sessions : List UUID
  lastActivityUnix : Int
deriving DecidableEq, Repr

/-- Embedding of `Cell.Detach` (`cell.go:115-122`): delete the
connection from the sessions map, touch the activity timestamp, and
report whether the set became empty. -/
def Cell.detach (now : Int) (c : Cell) (connID : UUID) : Cell × Bool :=
  let s := c.sessions.filter (fun k => decide (k ≠ connID))
  (⟨s, now⟩, s.isEmpty)

/-- The sharded Hub (`hub.go:31-64`): 256 shards, each a map from
userID to its Cell, here an association list per shard index. -/
structure Hub where
  shards : Fin 256 → List (UUID × Cell)

/-- Embedding of `Hub.getShard` (`hub.go:94-96`): shard selection by the
first byte of the userID. -/
def Hub.getShard (h : Hub) (u : UUID) : List (UUID × Cell) :=
  h.shards u.byte0

/-- Association-list lookup modelling the Go map probe
`cell, ok := s.cells[userID]`. -/
def assocFind : List (UUID × Cell) → UUID → Option (UUID × Cell)
  | [], _ => none
  | p :: rest, u => if p.1 = u then some p else assocFind rest u

/-- Embedding of `Hub.IsConnected` (`hub.go:99-105`): probe the shard
map for the userID key. -/
def Hub.isConnected (h : Hub) (u : UUID) : Bool :=
  (assocFind (h.getShard u) u).isSome

/-- Map lookup returning the user's Cell, the `cell, ok := s.cells[userID]`
idiom. -/
def Hub.lookupCell (h : Hub) (u : UUID) : Option Cell :=
  (assocFind (h.getShard u) u).map Prod.snd

/-- Embedding of `Hub.Unregister` (`hub.go:143-152`): look the Cell up
under a read lock and, when present, run `cell.Detach(connID)` on it;
the map binding itself is never deleted (the Go Cell is mutated through
its pointer; here the stored value is updated in place). -/
def Hub.unregister (now : Int) (h : Hub) (userID connID : UUID) : Hub :=
  match assocFind (h.getShard userID) userID with
  | none => h
  | some _ =>
    ⟨fun i =>
      if i = userID.byte0 then
        (h.shards i).map (fun p =>
          if p.1 = userID then (p.1, (Cell.detach now p.2 connID).1) else p)
      else h.shards i⟩

/-- Mapping a key-preserving function over an association list commutes
with lookup. -/
theorem assocFind_map_fst_preserving (g : UUID × Cell → UUID × Cell)
    (hg : ∀ p, (g p).1 = p.1) (v : UUID) (l : List (UUID × Cell)) :
    assocFind (l.map g) v = (assocFind l v).map g := by
  induction l with
  | nil => rfl
  | cons a t ih =>
    by_cases hv : a.1 = v
    · simp [assocFind, hg a, hv]
    · simp [assocFind, hg a, hv, ih]

/-- A successful association lookup returns a pair carrying the looked-up
key. -/
theorem assocFind_some_key (l : List (UUID × Cell)) (v : UUID)
    (q : UUID × Cell) (hq : assocFind l v = some q) : q.1 = v := by
  induction l with
  | nil => exact absurd hq (by simp [assocFind])
  | cons a t ih =>
    by_cases hv : a.1 = v
    · rw [assocFind, if_pos hv] at hq
      cases hq
      exact hv
    · rw [assocFind, if_neg hv] at hq
      exact ih hq

/-- Mapping an option and taking `isSome` is taking `isSome`. -/
theorem optionMap_isSome (f : UUID × Cell → UUID × Cell)
    (x : Option (UUID × Cell)) : (x.map f).isSome = x.isSome := by
  cases x <;> rfl

/-- CLAIM C5: `Hub.Unregister(userID, connID)` removes only the session
from the user's Cell and never removes the Cell from the Hub's map:
`IsConnected` is unchanged for every user (in particular it stays true
for `userID` even after its last session is detached, until the evictor
reclaims the Cell), every other user's Cell is untouched, and the
target user's Cell merely loses the session `connID`. -/
theorem c5_unregister_keeps_cell (now : Int) (h : Hub) (u connID : UUID) :
    (∀ v, (h.unregister now u connID).isConnected v = h.isConnected v) ∧
    (∀ v, v ≠ u → (h.unregister now u connID).lookupCell v = h.lookupCell v) ∧
    (∀ c, h.lookupCell u = some c →
      (h.unregister now u connID).lookupCell u
        = some (Cell.detach now c connID).1) := by
  set g : UUID × Cell → UUID × Cell :=
    fun p => if p.1 = u then (p.1, (Cell.detach now p.2 connID).1) else p with hgdef
  have hg : ∀ p, (g p).1 = p.1 := by
    intro p
    by_cases hp : p.1 = u <;> simp [hgdef, hp]
  rcases hfind : assocFind (h.shards u.byte0) u with _ | pr
  · have hid : h.unregister now u connID = h := by
      unfold Hub.unregister Hub.getShard
      rw [hfind]
    rw [hid]
    refine ⟨fun v => rfl, fun v _ => rfl, fun c hc => ?_⟩
    rw [Hub.lookupCell, Hub.getShard, hfind] at hc
    exact absurd hc (by simp)
  · have hshards : (h.unregister now u connID).shards = fun i =>
        if i = u.byte0 then (h.shards i).map g else h.shards i := by
      unfold Hub.unregister Hub.getShard
      rw [hfind]
    refine ⟨?_, ?_, ?_⟩
    · intro v
      simp only [Hub.isConnected, Hub.getShard, hshards]
      by_cases hb : v.byte0 = u.byte0
      · rw [if_pos hb, hb, assocFind_map_fst_preserving g hg v, optionMap_isSome]
      · rw [if_neg hb]
    · intro v hvu
      simp only [Hub.lookupCell, Hub.getShard, hshards]
      by_cases hb : v.byte0 = u.byte0
      · rw [if_pos hb, hb, assocFind_map_fst_preserving g hg v]
        rcases hfv : assocFind (h.shards u.byte0) v with _ | q
        · rfl
        · have hq : q.1 = v := assocFind_some_key _ _ _ hfv
          have hnq : ¬ q.1 = u := by rw [hq]; exact hvu
          simp [hgdef, hnq]
      · rw [if_neg hb]
    · intro c hc
      have hpr : pr.1 = u := assocFind_some_key _ _ _ hfind
      have hprc : pr.2 = c := by
        rw [Hub.lookupCell, Hub.getShard, hfind] at hc
        simpa using hc
      simp only [Hub.lookupCell, Hub.getShard, hshards, eq_self_iff_true, if_true]
      rw [assocFind_map_fst_preserving g hg u, hfind]
      simp [hgdef, hpr, hprc]

/-- Witness for `c5_unregister_keeps_cell`: one user with a single
session; after `Unregister` of that session the Cell stays registered
with an empty session set, and `IsConnected` still answers true. -/
theorem c5_unregister_keeps_cell_witness :
    ((Hub.unregister 7 ⟨fun i => if i = (0 : Fin 256) then
        [(⟨0, 1⟩, ⟨[⟨0, 2⟩], 0⟩)] else []⟩ ⟨0, 1⟩ ⟨0, 2⟩).isConnected ⟨0, 1⟩
      = (Hub.mk (fun i => if i = (0 : Fin 256) then
        [(⟨0, 1⟩, ⟨[⟨0, 2⟩], 0⟩)] else [])).isConnected ⟨0, 1⟩) ∧
    ((Hub.unregister 7 ⟨fun i => if i = (0 : Fin 256) then
        [(⟨0, 1⟩, ⟨[⟨0, 2⟩], 0⟩)] else []⟩ ⟨0, 1⟩ ⟨0, 2⟩).lookupCell ⟨0, 1⟩
      = some ⟨[], 7⟩) := by
  have h := c5_unregister_keeps_cell 7 ⟨fun i => if i = (0 : Fin 256) then
    [(⟨0, 1⟩, ⟨[⟨0, 2⟩], 0⟩)] else []⟩ ⟨0, 1⟩ ⟨0, 2⟩
  refine ⟨h.1 ⟨0, 1⟩, ?_⟩
  have hl := h.2.2 ⟨[⟨0, 2⟩], 0⟩ (by decide)
  rw [hl]
  decide

/-- Contiguous-substring test on character lists, the semantics of Go's
`strings.Contains`: the needle is a prefix of some suffix of the
haystack (an empty needle is always contained). -/
def charsContain (sub : List Char) : List Char → Bool
  | [] => sub.isEmpty
  | c :: rest => sub.isPrefixOf (c :: rest) || charsContain sub rest

/-- Embedding of `strings.Contains(s, sub)`. -/
def strContains (s sub : String) : Bool :=
  charsContain sub.data s.data

/-- A peer as the enricher and the V1 event see it.  Modelled from the
spec: the `model.Peer` carrying optional name/sub/issuer (spec §3 data
model) is repository code whose declaration is not among the provided
sources; its fields are those the provided sources read and write
(`peer.Name`, `peer.Sub`, `peer.Issuer`, `e.Message.To.Issuer`,
`e.Message.To.Sub`). -/
structure Peer where
  id : UUID
  ptype : Nat
  name : String
  sub : String
  issuer : String
deriving DecidableEq, Repr

/-- `model.PeerUser`, the first `PeerType` (`iota + 1`). -/
def PeerUser : Nat := 1

/-- Modelled from the spec: `model.NewPeer(id, type, opts...)` — the
functional-options constructor the enricher calls; it builds a peer with
empty identity fields and applies each option
(`peer_enricher.go:63,81,87,101`). -/
def NewPeer (id : UUID) (ptype : Nat) (opts : List (Peer → Peer)) : Peer :=
  opts.foldl (fun p f => f p) ⟨id, ptype, "", "", ""⟩

/-- Modelled from the spec: `model.WithIdentity(sub, issuer, name)`, the
option populating the identity fields (`peer_enricher.go:102-106`). -/
def WithIdentity (sub issuer name : String) (p : Peer) : Peer :=
  { p with sub := sub, issuer := issuer, name := name }

/-- The `model.Message` fields the V1 event reads
(`event_message_v1.go:53,66,75,77`). -/
structure Message where
  domainID : Int
  createdAt : Int
  sender : Peer
  To : Peer
deriving DecidableEq, Repr

/-- `event.MessageV1Event` (`internal/domain/event/event_message_v1.go:25-31`). -/
structure MessageV1Event where
  id : Nat
  message : Message
  userID : UUID
  domainID : Int
deriving DecidableEq, Repr

/-- Embedding of `MessageV1Event.GetRoutingKey`
(`event_message_v1.go:61-79`): lowercase the recipient issuer, classify
as bot when it contains "bot" or "schema", and format
`im_delivery.v1.{domain_id}.{peer_type}.{subject}.message.created` from
`e.Message.DomainID` and `e.Message.To.Sub`. -/
def GetRoutingKey (e : MessageV1Event) : String :=
  let issuer := e.message.To.issuer.toLower
  let peerType :=
    if strContains issuer ("bot") || strContains issuer ("schema") then "bot"
    else "contact"
  "im_delivery.v1." ++ toString e.message.domainID ++ "." ++ peerType ++ "."
    ++ e.message.To.sub ++ ".message.created"

/-- The peer-type selector in the words of the spec: "bot is inferred by
case-insensitive substring match of 'bot' or 'schema' in the recipient's
issuer; otherwise contact". -/
def specPeerType (e : MessageV1Event) : String :=
  if strContains e.message.To.issuer.toLower ("bot")
      || strContains e.message.To.issuer.toLower ("schema") then "bot"
  else "contact"

/-- CLAIM C8: for every `MessageV1Event`, `GetRoutingKey` returns
exactly `im_delivery.v1.{DomainID}.{peerType}.{To.Sub}.message.created`
(fields of the embedded `Message`, matching the claim's `To.Sub`
navigation), where the peer type is "bot" iff the lowercased recipient
issuer contains "bot" or "schema" as a substring and "contact"
otherwise. -/
theorem c8_routing_key_format (e : MessageV1Event) :
    GetRoutingKey e
      = "im_delivery.v1." ++ toString e.message.domainID ++ "." ++ specPeerType e
        ++ "." ++ e.message.To.sub ++ ".message.created" ∧
    (specPeerType e = "bot"
      ↔ (strContains e.message.To.issuer.toLower ("bot")
          || strContains e.message.To.issuer.toLower ("schema")) = true) ∧
    (specPeerType e = "bot" ∨ specPeerType e = "contact") := by
  refine ⟨rfl, ?_, ?_⟩
  · unfold specPeerType
    by_cases hc : (strContains e.message.To.issuer.toLower ("bot")
        || strContains e.message.To.issuer.toLower ("schema")) = true
    · simp [hc]
    · simp [hc]
  · unfold specPeerType
    by_cases hc : (strContains e.message.To.issuer.toLower ("bot")
        || strContains e.message.To.issuer.toLower ("schema")) = true
    · exact Or.inl (by simp [hc])
    · exact Or.inr (by simp [hc])

/-- A raw broker delivery as the binder sees it
(`bind.go:21`): a metadata dictionary (absent keys answer the empty
string, the Watermill `Metadata.Get` contract) and an opaque payload. -/
structure BusMessage where
  meta : String → String
  payload : String

/-- The routing key the binder reads (`bind.go:81-84`): the
`x-routing-key` header, falling back to `routing_key` when it is
empty. -/
def routingKeyOf (msg : BusMessage) : String :=
  let rk := msg.meta ("x-routing-key")
  if rk = "" then msg.meta ("routing_key") else rk

/-- Character-level split on a separator, the semantics of
`strings.SplitSeq(s, sep)` for a one-character separator: the empty
string yields one empty token, and every occurrence of the separator
starts a new token. -/
def splitChars (sep : Char) : List Char → List (List Char)
  | [] => [[]]
  | c :: rest =>
    let r := splitChars sep rest
    if c = sep then [] :: r
    else
      match r with
      | [] => [[c]]
      | g :: gs => (c :: g) :: gs

/-- Embedding of `strings.SplitSeq(rk, ".")` (`bind.go:86`). -/
def splitOnDot (s : String) : List String :=
  (splitChars ('.') s.data).map List.asString

/-- Scan of the dot-separated tokens for the first one `uuid.Parse`
accepts (`bind.go:86-91`); `parse` stands for `uuid.Parse`. -/
def firstUUIDToken (parse : String → Option UUID) : List String → Option UUID
  | [] => none
  | part :: rest =>
    match parse part with
    | some uid => some uid
    | none => firstUUIDToken parse rest

/-- Embedding of `resolveUserID` (`bind.go:80-92`). -/
def resolveUserID (parse : String → Option UUID) (msg : BusMessage) : Option UUID :=
  firstUUIDToken parse (splitOnDot (routingKeyOf msg))

/-- Observable outcome of one binder invocation: the returned error
(`none` acknowledges the message), whether `hub.Broadcast` was called,
and whether an outbound publish was attempted. -/
structure BindOutcome where
  err : Option String
  broadcasted : Bool
  published : Bool
deriving DecidableEq, Repr

/-- Embedding of the handler closure built by `Bind`
(`bind.go:20-78`), parametric in its collaborators: `parse` is
`uuid.Parse`, `isConn` is `hub.IsConnected`, `decode` is
`json.Unmarshal` into `T` (`none` = error), `handler` is the domain
handler `fn`, `exportable` is the `event.Exportable` type assertion, and
`publish` is `dispatcher.Publish` (`none` = success).  Missing user,
non-local user, and decode failure each acknowledge without broadcast or
publish; handler errors nack; a nil event acknowledges; otherwise the
event is broadcast locally and, when exportable, published. -/
def Bind {P E : Type} (parse : String → Option UUID) (isConn : UUID → Bool)
    (decode : String → Option P) (handler : UUID → P → Except String (Option E))
    (exportable : E → Bool) (publish : E → Option String)
    (msg : BusMessage) : BindOutcome :=
  match resolveUserID parse msg with
  | none => ⟨none, false, false⟩
  | some userID =>
    if isConn userID = false then ⟨none, false, false⟩
    else
      match decode msg.payload with
      | none => ⟨none, false, false⟩
      | some payload =>
        match handler userID payload with
        | Except.error e => ⟨some e, false, false⟩
        | Except.ok none => ⟨none, false, false⟩
        | Except.ok (some ev) =>
          if exportable ev then
            match publish ev with
            | some e => ⟨some ("GLOBAL_DISPATCH_FAILED: " ++ e), true, true⟩
            | none => ⟨none, true, true⟩
          else ⟨none, true, false⟩

/-- When no token parses as a UUID, the scan finds nothing. -/
theorem firstUUIDToken_none (parse : String → Option UUID)
    (parts : List String) (h : ∀ t ∈ parts, parse t = none) :
    firstUUIDToken parse parts = none := by
  induction parts with
  | nil => rfl
  | cons p rest ih =>
    rw [firstUUIDToken, h p (List.mem_cons_self _ _)]
    exact ih (fun t ht => h t (List.mem_cons_of_mem _ ht))

/-- CLAIM C7: for every inbound bus message whose routing-key metadata
contains no dot-separated token that parses as a UUID, or whose resolved
target user is not connected on this node, the binder handler returns
nil (acknowledge) without calling `Hub.Broadcast` and without publishing
anything outbound. -/
theorem c7_binder_locality_filter {P E : Type} (parse : String → Option UUID)
    (isConn : UUID → Bool) (decode : String → Option P)
    (handler : UUID → P → Except String (Option E))
    (exportable : E → Bool) (publish : E → Option String)
    (msg : BusMessage) :
    ((∀ t ∈ splitOnDot (routingKeyOf msg), parse t = none) →
      Bind parse isConn decode handler exportable publish msg
        = ⟨none, false, false⟩) ∧
    (∀ u, resolveUserID parse msg = some u → isConn u = false →
      Bind parse isConn decode handler exportable publish msg
        = ⟨none, false, false⟩) := by
  constructor
  · intro h
    have hres : resolveUserID parse msg = none := by
      rw [resolveUserID]
      exact firstUUIDToken_none parse _ h
    rw [Bind, hres]
  · intro u hres hconn
    rw [Bind, hres]
    simp only [hconn, if_pos]

/-- Witness for `c7_binder_locality_filter`: a message whose routing key
`a.b` holds no UUID token is acknowledged untouched (first part), and a
message resolving to a disconnected user is acknowledged untouched
(second part), under a parser accepting only the token `u`. -/
theorem c7_binder_locality_filter_witness :
    (Bind (P := Unit) (E := Unit) (fun _ => none) (fun _ => true)
        (fun _ => some ()) (fun _ _ => Except.ok none) (fun _ => false)
        (fun _ => none)
        ⟨fun k => if k = "x-routing-key" then "a.b" else "", "p"⟩
      = ⟨none, false, false⟩) ∧
    (Bind (P := Unit) (E := Unit)
        (fun s => if s = "u" then some ⟨3, 9⟩ else none) (fun _ => false)
        (fun _ => some ()) (fun _ _ => Except.ok none) (fun _ => false)
        (fun _ => none)
        ⟨fun k => if k = "x-routing-key" then "u.b" else "", "p"⟩
      = ⟨none, false, false⟩) := by
  constructor
  · exact (c7_binder_locality_filter (P := Unit) (E := Unit) (fun _ => none)
      (fun _ => true) (fun _ => some ()) (fun _ _ => Except.ok none)
      (fun _ => false) (fun _ => none)
      ⟨fun k => if k = "x-routing-key" then "a.b" else "", "p"⟩).1
      (by intro t _; rfl)
  · exact (c7_binder_locality_filter (P := Unit) (E := Unit)
      (fun s => if s = "u" then some ⟨3, 9⟩ else none) (fun _ => false)
      (fun _ => some ()) (fun _ _ => Except.ok none) (fun _ => false)
      (fun _ => none)
      ⟨fun k => if k = "x-routing-key" then "u.b" else "", "p"⟩).2
      ⟨3, 9⟩ (by decide) rfl

/-- A contact record as returned by the lookup RPC, with the four
getters `ResolvePeer` reads (`peer_enricher.go:92-106`). -/
structure Contact where
  name : String
  username : String
  subject : String
  issId : String
deriving DecidableEq, Repr

/-- The search request `ResolvePeer` issues (`peer_enricher.go:72-77`). -/
structure SearchContactRequest where
  ids : List String
  domainId : Int
  size : Nat
  page : Nat
deriving DecidableEq, Repr

/-- Cache probe of the enricher's LRU, keyed by the peer-ID string; for
the claims below only the get/add interface matters, modelled on an
association list (most recent first). -/
def peerCacheGet : List (String × Peer) → String → Option Peer
  | [], _ => none
  | (k, p) :: rest, key => if k = key then some p else peerCacheGet rest key

/-- Cache insertion (`e.cache.Add(id, peer)`). -/
def peerCacheAdd (cache : List (String × Peer)) (key : String) (p : Peer) :
    List (String × Peer) :=
  (key, p) :: cache

/-- Embedding of `PeerEnricher.ResolvePeer`
(`peer_enricher.go:59-111`), parametric in `uuid.Parse` (`parse`) and
the contact-lookup RPC (`search`; `Except.error` is a gRPC failure).
Returns the peer, the Go error (always `nil`), and the updated cache.
An unparsable ID yields a nil-ID User peer; a cache hit returns the
cached peer; an RPC failure yields a bare User peer with the requested
ID; an empty result yields the same bare peer and caches it; otherwise
the contact's identity is attached via `WithIdentity` and cached. -/
def ResolvePeer (parse : String → Option UUID)
    (search : SearchContactRequest → Except String (List Contact))
    (cache : List (String × Peer)) (id : String) (domainID : Int) :
    Peer × Option String × List (String × Peer) :=
  match parse id with
  | none => (NewPeer UUID.nil PeerUser [], none, cache)
  | some uid =>
    match peerCacheGet cache id with
    | some peer => (peer, none, cache)
    | none =>
      match search ⟨[id], domainID, 1, 1⟩ with
      | Except.error _ => (NewPeer uid PeerUser [], none, cache)
      | Except.ok [] =>
        let peer := NewPeer uid PeerUser []
        (peer, none, peerCacheAdd cache id peer)
      | Except.ok (contact :: _) =>
        let nm := if contact.name ≠ "" then contact.name else contact.username
        let peer := NewPeer uid PeerUser [WithIdentity contact.subject contact.issId nm]
        (peer, none, peerCacheAdd cache id peer)

/-- CLAIM C9: `ResolvePeer` never returns an error: every path yields a
nil error; an ID that does not parse as a UUID yields the nil-ID User
peer; on a cache miss, an RPC failure yields the bare User peer carrying
the requested ID (and the cache is not polluted); an empty lookup result
also yields the bare peer; only a successful non-empty lookup yields a
peer enriched through `WithIdentity`. -/
theorem c9_resolve_peer_never_errors (parse : String → Option UUID)
    (search : SearchContactRequest → Except String (List Contact))
    (cache : List (String × Peer)) (id : String) (domainID : Int) :
    (ResolvePeer parse search cache id domainID).2.1 = none ∧
    (parse id = none →
      ResolvePeer parse search cache id domainID
        = (NewPeer UUID.nil PeerUser [], none, cache)) ∧
    (∀ uid, parse id = some uid → peerCacheGet cache id = none →
      (∀ e, search ⟨[id], domainID, 1, 1⟩ = Except.error e →
        ResolvePeer parse search cache id domainID
          = (NewPeer uid PeerUser [], none, cache)) ∧
      (search ⟨[id], domainID, 1, 1⟩ = Except.ok [] →
        ResolvePeer parse search cache id domainID
          = (NewPeer uid PeerUser [], none,
              peerCacheAdd cache id (NewPeer uid PeerUser [])))) := by
  refine ⟨?_, ?_, ?_⟩
  · rcases hp : parse id with _ | uid
    · simp [ResolvePeer, hp]
    · rcases hcg : peerCacheGet cache id with _ | peer
      · rcases hs : search ⟨[id], domainID, 1, 1⟩ with e | cs
        · simp [ResolvePeer, hp, hcg, hs]
        · rcases cs with _ | ⟨contact, rest⟩
          · simp [ResolvePeer, hp, hcg, hs]
          · simp [ResolvePeer, hp, hcg, hs]
      · simp [ResolvePeer, hp, hcg]
  · intro hp
    simp [ResolvePeer, hp]
  · intro uid hp hcg
    constructor
    · intro e hs
      simp [ResolvePeer, hp, hcg, hs]
    · intro hs
      simp [ResolvePeer, hp, hcg, hs]

/-- Witness for `c9_resolve_peer_never_errors`: under a parser accepting
only `u` and an RPC that always fails, resolving `bad-id` yields the
nil-ID peer with nil error, and resolving `u` on an empty cache yields
the bare peer for `u` with nil error. -/
theorem c9_resolve_peer_never_errors_witness :
    (ResolvePeer (fun s => if s = "u" then some ⟨5, 5⟩ else none)
        (fun _ => Except.error ("rpc down")) [] "bad-id" 1
      = (NewPeer UUID.nil PeerUser [], none, [])) ∧
    (ResolvePeer (fun s => if s = "u" then some ⟨5, 5⟩ else none)
        (fun _ => Except.error ("rpc down")) [] "u" 1
      = (NewPeer ⟨5, 5⟩ PeerUser [], none, [])) := by
  constructor
  · exact (c9_resolve_peer_never_errors (fun s => if s = "u" then some ⟨5, 5⟩ else none)
      (fun _ => Except.error ("rpc down")) [] "bad-id" 1).2.1 (by decide)
  · exact ((c9_resolve_peer_never_errors (fun s => if s = "u" then some ⟨5, 5⟩ else none)
      (fun _ => Except.error ("rpc down")) [] "u" 1).2.2 ⟨5, 5⟩ (by decide) rfl).1
      "rpc down" rfl

end IMDelivery
